import Mathlib

/-!
Shallow embedding of the Monopoly companion-server repository
(`src/server/game_state.py`, `src/server/server.py`, `src/common/messages.py`)
and proofs about its specified behaviour.

Python dictionaries are embedded as insertion-ordered association lists:
assignment to an existing key replaces the value in place, assignment to a
fresh key appends, deletion removes the entry, and `list(d.keys())` is the
list of first components.  Machine integers are `Int`/`Nat` (Python ints are
unbounded, so no wrap-around modelling is needed).  `random.randint(1, 6)`
outcomes are passed in as parameters constrained to `[1, 6]`.
-/

namespace Monopoly

/-- Python `d[k] = v` on an insertion-ordered dict: replace in place if the
key exists, append otherwise. -/
def dinsert {α β : Type} [DecidableEq α] (k : α) (v : β) :
    List (α × β) → List (α × β)
  | [] => [(k, v)]
  | (k0, v0) :: rest =>
      if k0 = k then (k, v) :: rest else (k0, v0) :: dinsert k v rest

/-- Python `del d[k]`: drop the entry for `k` (keys are unique, so dropping
every match is the same as removing the one entry). -/
def dremove {α β : Type} [DecidableEq α] (k : α) : List (α × β) → List (α × β)
  | [] => []
  | (k0, v0) :: rest =>
      if k0 = k then dremove k rest else (k0, v0) :: dremove k rest

/-- Python `d.get(k)` / `d[k]` lookup. -/
def dget {α β : Type} [DecidableEq α] (k : α) : List (α × β) → Option β
  | [] => none
  | (k0, v0) :: rest => if k0 = k then some v0 else dget k rest

/-- Python `list(d.keys())` (insertion order). -/
def dkeys {α β : Type} (d : List (α × β)) : List α :=
  d.map Prod.fst

/-- `src/server/game_state.py` `Player.__init__`: the mutable per-player
record.  `position` is a board position `0‥39`, `money` starts at 1500. -/
structure Player where
  id : String
  name : String
  position : Nat
  money : Int
  owned_properties : List Nat
  is_in_jail : Bool
  jail_turns : Nat
  get_out_of_jail_cards : Nat
deriving Repr, DecidableEq

/-- `Player(id, name)`: fresh player at position 0 with 1500 money. -/
def mkPlayer (id name : String) : Player :=
  { id := id, name := name, position := 0, money := 1500,
    owned_properties := [], is_in_jail := false, jail_turns := 0,
    get_out_of_jail_cards := 0 }

/-- `src/server/game_state.py` `GameState.__init__` fields (the immutable
`Board` is modelled separately for serialization; no game-state operation
reads or writes it).  `game_phase` is the literal Python string. -/
structure GameState where
  players : List (String × Player)
  current_player_id : Option String
  dice_roll : Nat × Nat
  game_phase : String
  turn_number : Nat
deriving Repr, DecidableEq

/-- `GameState()`: empty player dict, no current player, dice `(0,0)`,
phase `"waiting_for_players"`, turn 0. -/
def initialState : GameState :=
  { players := [], current_player_id := none, dice_roll := (0, 0),
    game_phase := "waiting_for_players", turn_number := 0 }

/-- Python truthiness of `self.current_player_id` in
`if not self.current_player_id`: `None` and the empty string are falsy. -/
def optStrFalsy : Option String → Bool
  | none => true
  | some s => s.isEmpty

/-- `GameState.add_player`: unconditionally stores a fresh `Player` under
`player_id` (overwriting any existing entry); if `current_player_id` is
falsy and the phase is `"waiting_for_players"`, makes the new player
current and moves the phase to `"playing"`.  Returns the created player. -/
def add_player (s : GameState) (player_id player_name : String) :
    GameState × Player :=
  let player := mkPlayer player_id player_name
  let players := dinsert player_id player s.players
  if optStrFalsy s.current_player_id ∧ s.game_phase = "waiting_for_players"
  then
    ({ s with
        players := players
        current_player_id := some player_id
        game_phase := "playing" }, player)
  else ({ s with players := players }, player)

/-- `GameState._advance_to_next_player`: over the *current* key list; if the
current id is still present, step to its cyclic successor, otherwise fall
back to index 0; with no players, clear the current id. -/
def advance_to_next_player (s : GameState) : GameState :=
  let player_ids := dkeys s.players
  if player_ids.isEmpty then { s with current_player_id := none }
  else
    let next_idx :=
      match s.current_player_id with
      | some c =>
          if c ∈ player_ids then (player_ids.indexOf c + 1) % player_ids.length
          else 0
      | none => 0
    { s with current_player_id := player_ids.get? next_idx }

/-- `GameState.remove_player`: delete the entry when present (returning
`true`), advancing past the removed current player and resetting the game
when the table empties; return `false` for an unknown id. -/
def remove_player (s : GameState) (player_id : String) : Bool × GameState :=
  if (dget player_id s.players).isSome then
    let s1 := { s with players := dremove player_id s.players }
    let s2 := if s1.current_player_id = some player_id
              then advance_to_next_player s1 else s1
    let s3 := if s2.players.isEmpty
              then { s2 with
                      game_phase := "waiting_for_players"
                      current_player_id := none
                      turn_number := 0 }
              else s2
    (true, s3)
  else (false, s)

/-- `GameState.move_player`: `-1` for an unknown id; otherwise advance the
position modulo 40, credit 200 when the new position is numerically below
the old one (passing GO), and return the new position. -/
def move_player (s : GameState) (player_id : String) (steps : Nat) :
    Int × GameState :=
  match dget player_id s.players with
  | none => (-1, s)
  | some player =>
      let old_position := player.position
      let new_position := (player.position + steps) % 40
      let money := if new_position < old_position
                   then player.money + 200 else player.money
      let player1 := { player with position := new_position, money := money }
      ((new_position : Int),
       { s with players := dinsert player_id player1 s.players })

/-- `src/server/server.py` `MonopolyServer._handle_dice_roll`, with the two
`random.randint(1, 6)` draws passed in as `d1`, `d2`: reject (return the
state unchanged) unless the actor is the current player; otherwise store
`(d1, d2)` as `dice_roll` and move the actor by `d1 + d2`. -/
def handle_dice_roll (s : GameState) (player_id : String) (d1 d2 : Nat) :
    GameState :=
  if s.current_player_id ≠ some player_id then s
  else
    let steps := d1 + d2
    let s1 := { s with dice_roll := (d1, d2) }
    (move_player s1 player_id steps).2

/-- `src/server/server.py` `MonopolyServer._handle_end_turn`: reject unless
the actor is the current player; otherwise step `current_player_id` to the
cyclic successor in the key list (Python computes `-1` for a missing id, so
`(idx + 1) % len` falls back to 0), increment the turn counter and clear the
dice. -/
def handle_end_turn (s : GameState) (player_id : String) : GameState :=
  if s.current_player_id ≠ some player_id then s
  else
    let player_ids := dkeys s.players
    if player_ids.isEmpty then s
    else
      let next_idx :=
        if player_id ∈ player_ids
        then (player_ids.indexOf player_id + 1) % player_ids.length
        else 0
      { s with
          current_player_id := player_ids.get? next_idx
          turn_number := s.turn_number + 1
          dice_roll := (0, 0) }

/-- One mutating operation of the claim-C1 alphabet: `add_player`,
`remove_player` (both on `GameState`) or the server's `end_turn` handler
acting on behalf of some session. -/
inductive Op where
  | add (player_id player_name : String)
  | remove (player_id : String)
  | endTurn (player_id : String)
deriving Repr, DecidableEq

/-- Apply one operation to a state. -/
def applyOp (s : GameState) : Op → GameState
  | .add pid pname => (add_player s pid pname).1
  | .remove pid => (remove_player s pid).2
  | .endTurn pid => handle_end_turn s pid

/-- Run a whole operation sequence from a state. -/
def applyOps (s : GameState) (ops : List Op) : GameState :=
  ops.foldl applyOp s

@[simp]
theorem dkeys_nil {α β : Type} : dkeys ([] : List (α × β)) = [] := rfl

@[simp]
theorem dkeys_cons {α β : Type} (p : α × β) (d : List (α × β)) :
    dkeys (p :: d) = p.1 :: dkeys d := rfl

theorem mem_dkeys_dinsert {α β : Type} [DecidableEq α] (k a : α) (v : β)
    (d : List (α × β)) : a ∈ dkeys (dinsert k v d) ↔ a ∈ dkeys d ∨ a = k := by
  induction d with
  | nil => simp [dinsert]
  | cons hd tl ih =>
      obtain ⟨k0, v0⟩ := hd
      by_cases h : k0 = k
      · subst h; simp [dinsert]; tauto
      · simp [dinsert, h, ih]; tauto

theorem mem_dkeys_dremove {α β : Type} [DecidableEq α] (k a : α)
    (d : List (α × β)) : a ∈ dkeys (dremove k d) ↔ a ∈ dkeys d ∧ a ≠ k := by
  induction d with
  | nil => simp [dremove]
  | cons hd tl ih =>
      obtain ⟨k0, v0⟩ := hd
      by_cases h : k0 = k
      · subst h; simp [dremove, ih]; tauto
      · simp [dremove, h, ih]
        constructor
        · rintro (rfl | ⟨ha, hk⟩)
          · exact ⟨Or.inl rfl, fun hak => h (hak ▸ rfl)⟩
          · exact ⟨Or.inr ha, hk⟩
        · rintro ⟨(rfl | ha), hk⟩
          · exact Or.inl rfl
          · exact Or.inr ⟨ha, hk⟩

theorem dget_isSome_iff {α β : Type} [DecidableEq α] (k : α)
    (d : List (α × β)) : (dget k d).isSome ↔ k ∈ dkeys d := by
  induction d with
  | nil => simp [dget]
  | cons hd tl ih =>
      obtain ⟨k0, v0⟩ := hd
      by_cases h : k0 = k
      · subst h; simp [dget]
      · simp [dget, h, ih]
        tauto

theorem dkeys_eq_nil_iff {α β : Type} (d : List (α × β)) :
    dkeys d = [] ↔ d = [] := by
  cases d <;> simp

/-- The inductive invariant of the game state reachable by
`add_player` / `remove_player` / `_handle_end_turn`: a `none` turn pointer
only occurs in the empty waiting room, phase `"waiting_for_players"` forces
a `none` turn pointer, and a set turn pointer names a present player. -/
def Inv (s : GameState) : Prop :=
  (s.current_player_id = none →
    s.players = [] ∧ s.game_phase = "waiting_for_players") ∧
  (s.game_phase = "waiting_for_players" → s.current_player_id = none) ∧
  (∀ c, s.current_player_id = some c → c ∈ dkeys s.players)

theorem inv_initialState : Inv initialState :=
  ⟨fun _ => ⟨rfl, rfl⟩, fun _ => rfl, fun c h => by simp [initialState] at h⟩

theorem inv_add_player (s : GameState) (pid pname : String) (hs : Inv s) :
    Inv (add_player s pid pname).1 := by
  obtain ⟨h1, h2, h3⟩ := hs
  unfold add_player
  by_cases hc : optStrFalsy s.current_player_id ∧
      s.game_phase = "waiting_for_players"
  · rw [if_pos hc]
    refine ⟨fun h => Option.noConfusion h,
            fun h => absurd h
              (show ("playing" : String) ≠ "waiting_for_players" by decide),
            fun c h => ?_⟩
    exact (mem_dkeys_dinsert pid c (mkPlayer pid pname) s.players).mpr
      (Or.inr (Option.some.inj h).symm)
  · rw [if_neg hc]
    refine ⟨fun h => absurd ⟨by rw [h]; rfl, (h1 h).2⟩ hc,
            h2,
            fun c h => (mem_dkeys_dinsert pid c (mkPlayer pid pname)
              s.players).mpr (Or.inl (h3 c h))⟩

theorem advance_players_eq (s : GameState) :
    (advance_to_next_player s).players = s.players := by
  unfold advance_to_next_player
  dsimp only
  split <;> rfl

theorem advance_phase_eq (s : GameState) :
    (advance_to_next_player s).game_phase = s.game_phase := by
  unfold advance_to_next_player
  dsimp only
  split <;> rfl

theorem advance_current_mem (s : GameState) (hne : s.players ≠ []) :
    ∃ c, (advance_to_next_player s).current_player_id = some c ∧
      c ∈ dkeys s.players := by
  unfold advance_to_next_player
  dsimp only
  have hlen : 0 < (dkeys s.players).length := by
    cases hp : s.players with
    | nil => exact absurd hp hne
    | cons a l => simp [hp]
  have hie : ¬((dkeys s.players).isEmpty = true) := by
    cases hp : s.players with
    | nil => exact absurd hp hne
    | cons a l => simp [hp]
  rw [if_neg hie]
  have hlt : (match s.current_player_id with
      | some c =>
          if c ∈ dkeys s.players
          then ((dkeys s.players).indexOf c + 1) % (dkeys s.players).length
          else 0
      | none => 0) < (dkeys s.players).length := by
    cases s.current_player_id with
    | none => exact hlen
    | some c =>
        dsimp only
        by_cases hm : c ∈ dkeys s.players
        · rw [if_pos hm]; exact Nat.mod_lt _ hlen
        · rw [if_neg hm]; exact hlen
  refine ⟨(dkeys s.players).get ⟨_, hlt⟩, ?_, List.get_mem _ _ _⟩
  rw [List.get?_eq_get hlt]
theorem inv_remove_player (s : GameState) (pid : String) (hs : Inv s) :
    Inv (remove_player s pid).2 := by
  obtain ⟨h1, h2, h3⟩ := hs
  unfold remove_player
  by_cases hp : (dget pid s.players).isSome
  · rw [if_pos hp]
    dsimp only
    by_cases hcur : s.current_player_id = some pid
    · rw [if_pos hcur]
      by_cases hne : ({ s with players := dremove pid s.players } :
          GameState).players = []
      · have hemp : (advance_to_next_player
            { s with players := dremove pid s.players }).players.isEmpty
              = true := by
          rw [advance_players_eq, hne]; rfl
        rw [if_pos hemp]
        exact ⟨fun _ => ⟨by rw [advance_players_eq]; exact hne, rfl⟩,
               fun _ => rfl, fun c h => Option.noConfusion h⟩
      · obtain ⟨c0, hc0, hc0m⟩ :=
          advance_current_mem { s with players := dremove pid s.players } hne
        have hemp : ¬((advance_to_next_player
            { s with players := dremove pid s.players }).players.isEmpty
              = true) := by
          rw [advance_players_eq]
          cases hq : ({ s with players := dremove pid s.players } :
              GameState).players with
          | nil => exact absurd hq hne
          | cons a l => simp
        rw [if_neg hemp]
        refine ⟨fun h => Option.noConfusion (hc0.symm.trans h),
                fun h => ?_, fun c h => ?_⟩
        · rw [advance_phase_eq] at h
          exact Option.noConfusion ((h2 h).symm.trans hcur)
        · rw [advance_players_eq]
          exact (Option.some.inj (hc0.symm.trans h)) ▸ hc0m
    · rw [if_neg hcur]
      by_cases hne : ({ s with players := dremove pid s.players } :
          GameState).players = []
      · have hemp : ({ s with players := dremove pid s.players } :
            GameState).players.isEmpty = true := by rw [hne]; rfl
        rw [if_pos hemp]
        exact ⟨fun _ => ⟨hne, rfl⟩, fun _ => rfl,
               fun c h => Option.noConfusion h⟩
      · have hemp : ¬(({ s with players := dremove pid s.players } :
            GameState).players.isEmpty = true) := by
          cases hq : ({ s with players := dremove pid s.players } :
              GameState).players with
          | nil => exact absurd hq hne
          | cons a l => simp
        rw [if_neg hemp]
        refine ⟨fun h => ?_, fun h => h2 h, fun c h => ?_⟩
        · exfalso
          obtain ⟨hpl, _⟩ := h1 h
          rw [hpl] at hp
          simp [dget] at hp
        · have hcs : s.current_player_id = some c := h
          have hcne : c ≠ pid := fun he => hcur (by rw [hcs, he])
          exact (mem_dkeys_dremove pid c s.players).mpr ⟨h3 c hcs, hcne⟩
  · rw [if_neg hp]
    exact ⟨h1, h2, h3⟩

theorem inv_handle_end_turn (s : GameState) (pid : String) (hs : Inv s) :
    Inv (handle_end_turn s pid) := by
  obtain ⟨h1, h2, h3⟩ := hs
  unfold handle_end_turn
  by_cases hcur : s.current_player_id ≠ some pid
  · rw [if_pos hcur]; exact ⟨h1, h2, h3⟩
  · rw [if_neg hcur]
    dsimp only
    push_neg at hcur
    by_cases hie : (dkeys s.players).isEmpty = true
    · rw [if_pos hie]; exact ⟨h1, h2, h3⟩
    · rw [if_neg hie]
      have hlen : 0 < (dkeys s.players).length := by
        cases hq : dkeys s.players with
        | nil => rw [hq] at hie; exact absurd rfl hie
        | cons a l => simp
      have hlt : (if pid ∈ dkeys s.players
          then ((dkeys s.players).indexOf pid + 1) % (dkeys s.players).length
          else 0) < (dkeys s.players).length := by
        by_cases hm : pid ∈ dkeys s.players
        · rw [if_pos hm]; exact Nat.mod_lt _ hlen
        · rw [if_neg hm]; exact hlen
      refine ⟨fun h => ?_, fun h => ?_, fun c h => ?_⟩
      · rw [List.get?_eq_get hlt] at h
        exact Option.noConfusion h
      · exact Option.noConfusion ((h2 h).symm.trans hcur)
      · rw [List.get?_eq_get hlt] at h
        exact (Option.some.inj h) ▸ List.get_mem _ _ _

theorem inv_applyOp (s : GameState) (op : Op) (hs : Inv s) :
    Inv (applyOp s op) := by
  cases op with
  | add pid pname => exact inv_add_player s pid pname hs
  | remove pid => exact inv_remove_player s pid hs
  | endTurn pid => exact inv_handle_end_turn s pid hs

theorem inv_applyOps (s : GameState) (ops : List Op) (hs : Inv s) :
    Inv (applyOps s ops) := by
  induction ops generalizing s with
  | nil => exact hs
  | cons op rest ih => exact ih (applyOp s op) (inv_applyOp s op hs)

/-- **C1.** For every finite sequence of `add_player`, `remove_player` and
`end_turn` operations starting from the initial `GameState`,
`current_player_id` is always either `none` — and then the player mapping
is empty — or a key of the current player mapping. -/
theorem c1_current_player_id_invariant (ops : List Op) :
    ((applyOps initialState ops).current_player_id = none →
      (applyOps initialState ops).players = []) ∧
    (∀ c, (applyOps initialState ops).current_player_id = some c →
      c ∈ dkeys (applyOps initialState ops).players) := by
  obtain ⟨h1, _, h3⟩ := inv_applyOps initialState ops inv_initialState
  exact ⟨fun h => (h1 h).1, h3⟩

/-- Witness for C1 at the concrete operation sequences
`[add A, add B, remove A]` (turn pointer is a present key) and
`[add A, remove A]` (turn pointer `none` with an empty mapping). -/
theorem c1_current_player_id_invariant_witness :
    "B" ∈ dkeys (applyOps initialState
      [Op.add "A" "Alice", Op.add "B" "Bob", Op.remove "A"]).players ∧
    (applyOps initialState [Op.add "A" "Alice", Op.remove "A"]).players
      = [] :=
  ⟨(c1_current_player_id_invariant
      [Op.add "A" "Alice", Op.add "B" "Bob", Op.remove "A"]).2 "B" (by decide),
   (c1_current_player_id_invariant [Op.add "A" "Alice", Op.remove "A"]).1
      (by decide)⟩

/-- **C2 (counterexample).** With players added in order A, B, C and the
turn advanced to B, removing B (the current player) makes A current —
`_advance_to_next_player` no longer finds the removed id in the key list
and falls back to index 0 — whereas the claim requires the cyclic successor
C of the removed player to become current. -/
theorem c2_remove_player_counterexample :
    (applyOps initialState
      [Op.add "A" "Alice", Op.add "B" "Bob", Op.add "C" "Carol",
       Op.endTurn "A"]).current_player_id = some "B" ∧
    dkeys (applyOps initialState
      [Op.add "A" "Alice", Op.add "B" "Bob", Op.add "C" "Carol",
       Op.endTurn "A"]).players = ["A", "B", "C"] ∧
    (remove_player (applyOps initialState
      [Op.add "A" "Alice", Op.add "B" "Bob", Op.add "C" "Carol",
       Op.endTurn "A"]) "B").2.current_player_id = some "A" ∧
    (remove_player (applyOps initialState
      [Op.add "A" "Alice", Op.add "B" "Bob", Op.add "C" "Carol",
       Op.endTurn "A"]) "B").2.current_player_id ≠ some "C" := by
  refine ⟨by decide, by decide, by decide, by decide⟩

/-- **C2 (amended).** `remove_player(id)` deletes the player with that id
and returns `true` when present and `false` when unknown; if the removed
player was the current player and players remain, `current_player_id`
becomes the *first remaining player in insertion order* (index 0 of the
remaining key list), not the cyclic successor of the removed id; if no
players remain, the phase resets to `"waiting_for_players"`,
`current_player_id` clears to `none` and the turn counter resets to 0.
Dice, phase and turn counter are otherwise untouched. -/
theorem c2_remove_player_amended (s : GameState) (pid : String) :
    (dget pid s.players = none → remove_player s pid = (false, s)) ∧
    ((dget pid s.players).isSome → dremove pid s.players = [] →
      remove_player s pid = (true,
        { s with
            players := dremove pid s.players
            current_player_id := none
            game_phase := "waiting_for_players"
            turn_number := 0 })) ∧
    ((dget pid s.players).isSome → dremove pid s.players ≠ [] →
      s.current_player_id = some pid →
      remove_player s pid = (true,
        { s with
            players := dremove pid s.players
            current_player_id := (dkeys (dremove pid s.players)).get? 0 })) ∧
    ((dget pid s.players).isSome → dremove pid s.players ≠ [] →
      s.current_player_id ≠ some pid →
      remove_player s pid = (true,
        { s with players := dremove pid s.players })) := by
  refine ⟨fun h => ?_, fun hp hq => ?_, fun hp hq hcur => ?_,
          fun hp hq hcur => ?_⟩
  · unfold remove_player
    rw [if_neg (by rw [h]; simp)]
  · unfold remove_player
    rw [if_pos hp]
    dsimp only
    have hemp : ∀ t : GameState, t.players = dremove pid s.players →
        t.players.isEmpty = true := fun t ht => by rw [ht, hq]; rfl
    by_cases hcur : s.current_player_id = some pid
    · rw [if_pos hcur]
      rw [if_pos (hemp _ (advance_players_eq _))]
      unfold advance_to_next_player
      dsimp only
      rw [if_pos (by rw [hq]; rfl)]
    · rw [if_neg hcur]
      rw [if_pos (hemp _ rfl)]
  · unfold remove_player
    rw [if_pos hp]
    dsimp only
    rw [if_pos hcur]
    unfold advance_to_next_player
    dsimp only
    have hie : ¬((dkeys (dremove pid s.players)).isEmpty = true) := by
      cases hd : dremove pid s.players with
      | nil => exact absurd hd hq
      | cons a l => simp
    rw [if_neg hie, hcur]
    dsimp only
    have hnm : ¬(pid ∈ dkeys (dremove pid s.players)) :=
      fun hm => ((mem_dkeys_dremove pid pid s.players).mp hm).2 rfl
    rw [if_neg hnm]
    rw [if_neg (show ¬((dremove pid s.players).isEmpty = true) by
      cases hd : dremove pid s.players with
      | nil => exact absurd hd hq
      | cons a l => simp)]
  · unfold remove_player
    rw [if_pos hp]
    dsimp only
    rw [if_neg hcur]
    rw [if_neg (show ¬((dremove pid s.players).isEmpty = true) by
      cases hd : dremove pid s.players with
      | nil => exact absurd hd hq
      | cons a l => simp)]

/-- Witness for C2 (amended): an unknown id returns `false` and leaves the
state alone; removing the current player B from A,B,C (current B) yields
`true` with A — index 0 of the remaining keys — as the new current
player. -/
theorem c2_remove_player_amended_witness :
    remove_player initialState "X" = (false, initialState) ∧
    remove_player (applyOps initialState
      [Op.add "A" "Alice", Op.add "B" "Bob", Op.add "C" "Carol",
       Op.endTurn "A"]) "B" = (true,
      { applyOps initialState
          [Op.add "A" "Alice", Op.add "B" "Bob", Op.add "C" "Carol",
           Op.endTurn "A"] with
          players := dremove "B" (applyOps initialState
            [Op.add "A" "Alice", Op.add "B" "Bob", Op.add "C" "Carol",
             Op.endTurn "A"]).players
          current_player_id := (dkeys (dremove "B" (applyOps initialState
            [Op.add "A" "Alice", Op.add "B" "Bob", Op.add "C" "Carol",
             Op.endTurn "A"]).players)).get? 0 }) :=
  ⟨(c2_remove_player_amended initialState "X").1 rfl,
   (c2_remove_player_amended (applyOps initialState
      [Op.add "A" "Alice", Op.add "B" "Bob", Op.add "C" "Carol",
       Op.endTurn "A"]) "B").2.2.1 (by decide) (by decide) (by decide)⟩

theorem dget_dinsert_self {α β : Type} [DecidableEq α] (k : α) (v : β)
    (d : List (α × β)) : dget k (dinsert k v d) = some v := by
  induction d with
  | nil => simp [dinsert, dget]
  | cons hd tl ih =>
      obtain ⟨k0, v0⟩ := hd
      by_cases h : k0 = k
      · subst h; simp [dinsert, dget]
      · simp [dinsert, dget, h, ih]

theorem dkeys_dinsert_of_mem {α β : Type} [DecidableEq α] (k : α) (v : β)
    (d : List (α × β)) (hm : k ∈ dkeys d) :
    dkeys (dinsert k v d) = dkeys d := by
  induction d with
  | nil => simp at hm
  | cons hd tl ih =>
      obtain ⟨k0, v0⟩ := hd
      by_cases h : k0 = k
      · subst h; simp [dinsert]
      · have hm0 : k ∈ dkeys tl := by
          rcases (by simpa using hm) with h0 | h0
          · exact absurd h0.symm h
          · exact h0
        simp [dinsert, h, ih hm0]

/-- **C3 (counterexample).** Add "A", move them to position 10, then call
`add_player` again with the same id: no error is signalled, and the stored
player is reset to position 0 — the state is modified, falsifying the
claim that a duplicate id is an `IdAlreadyExists` error leaving the state
unchanged. -/
theorem c3_add_player_counterexample :
    (dget "A" (move_player (add_player initialState "A" "Alice").1
       "A" 10).2.players).map Player.position = some 10 ∧
    (dget "A" (add_player (move_player (add_player initialState "A"
       "Alice").1 "A" 10).2 "A" "Bob").1.players).map Player.position
       = some 0 ∧
    (add_player (move_player (add_player initialState "A" "Alice").1
       "A" 10).2 "A" "Bob").1
      ≠ (move_player (add_player initialState "A" "Alice").1 "A" 10).2 := by
  refine ⟨by decide, by decide, by decide⟩

/-- **C3 (amended).** `add_player` with an already-present id raises no
error: it silently replaces the stored player with a fresh
`Player(position 0, money 1500, no owned properties)` under the new name,
keeping the id's place in insertion order; the previous position, money and
owned properties are lost.  `current_player_id` and `game_phase` follow the
same first-player rule as any add; dice and turn counter are untouched. -/
theorem c3_add_player_amended (s : GameState) (pid pname : String)
    (hp : (dget pid s.players).isSome) :
    (add_player s pid pname).2 = mkPlayer pid pname ∧
    dget pid (add_player s pid pname).1.players
      = some (mkPlayer pid pname) ∧
    dkeys (add_player s pid pname).1.players = dkeys s.players ∧
    (add_player s pid pname).1.dice_roll = s.dice_roll ∧
    (add_player s pid pname).1.turn_number = s.turn_number ∧
    (optStrFalsy s.current_player_id ∧
        s.game_phase = "waiting_for_players" →
      (add_player s pid pname).1.current_player_id = some pid ∧
      (add_player s pid pname).1.game_phase = "playing") ∧
    (¬(optStrFalsy s.current_player_id ∧
        s.game_phase = "waiting_for_players") →
      (add_player s pid pname).1.current_player_id
          = s.current_player_id ∧
      (add_player s pid pname).1.game_phase = s.game_phase) := by
  have hm : pid ∈ dkeys s.players := (dget_isSome_iff pid s.players).mp hp
  unfold add_player
  by_cases hc : optStrFalsy s.current_player_id ∧
      s.game_phase = "waiting_for_players"
  · rw [if_pos hc]
    exact ⟨rfl, dget_dinsert_self pid _ s.players,
           dkeys_dinsert_of_mem pid _ s.players hm, rfl, rfl,
           fun _ => ⟨rfl, rfl⟩, fun h => absurd hc h⟩
  · rw [if_neg hc]
    exact ⟨rfl, dget_dinsert_self pid _ s.players,
           dkeys_dinsert_of_mem pid _ s.players hm, rfl, rfl,
           fun h => absurd h hc, fun _ => ⟨rfl, rfl⟩⟩

/-- Witness for C3 (amended) at the counterexample state: re-adding "A"
over a player at position 10 stores the fresh player. -/
theorem c3_add_player_amended_witness :
    dget "A" (add_player (move_player (add_player initialState "A"
       "Alice").1 "A" 10).2 "A" "Bob").1.players
      = some (mkPlayer "A" "Bob") :=
  (c3_add_player_amended (move_player (add_player initialState "A"
     "Alice").1 "A" 10).2 "A" "Bob" (by decide)).2.1

theorem move_player_dice_eq (s : GameState) (pid : String) (steps : Nat) :
    (move_player s pid steps).2.dice_roll = s.dice_roll := by
  unfold move_player
  split <;> rfl

theorem move_player_current_eq (s : GameState) (pid : String) (steps : Nat) :
    (move_player s pid steps).2.current_player_id = s.current_player_id := by
  unfold move_player
  split <;> rfl

theorem move_player_turn_eq (s : GameState) (pid : String) (steps : Nat) :
    (move_player s pid steps).2.turn_number = s.turn_number := by
  unfold move_player
  split <;> rfl

/-- **C4.** For a present player, `move_player(id, steps)` returns
`(old + steps) % 40`, stores it as the new position, and credits exactly
200 money iff the new position is numerically below the old one; for
`steps = 40` (with a legal position `< 40`) both position and money are
unchanged. -/
theorem c4_move_player (s : GameState) (pid : String) (steps : Nat)
    (pl : Player) (hp : dget pid s.players = some pl) :
    (move_player s pid steps).1 = ((pl.position + steps) % 40 : Int) ∧
    dget pid (move_player s pid steps).2.players = some
      { pl with
          position := (pl.position + steps) % 40
          money := if (pl.position + steps) % 40 < pl.position
                   then pl.money + 200 else pl.money } ∧
    (steps = 40 → pl.position < 40 →
      (move_player s pid steps).1 = (pl.position : Int) ∧
      dget pid (move_player s pid steps).2.players = some pl) := by
  unfold move_player
  rw [hp]
  dsimp only
  refine ⟨rfl, dget_dinsert_self _ _ _, fun h40 hlt => ?_⟩
  subst h40
  have hm : (pl.position + 40) % 40 = pl.position := by omega
  rw [hm, if_neg (Nat.lt_irrefl pl.position)]
  exact ⟨rfl, dget_dinsert_self _ _ _⟩

/-- Witness for C4: from position 35, 10 steps land on 5 with a 200
credit; from position 10, 5 steps land on 15 with no credit; 40 steps
leave position 10 and the money untouched. -/
theorem c4_move_player_witness :
    (move_player (move_player (add_player initialState "A" "Alice").1
       "A" 35).2 "A" 10).1 = (5 : Int) ∧
    dget "A" (move_player (move_player (add_player initialState "A"
       "Alice").1 "A" 35).2 "A" 10).2.players
      = some { mkPlayer "A" "Alice" with position := 5, money := 1700 } ∧
    (move_player (move_player (add_player initialState "A" "Alice").1
       "A" 10).2 "A" 5).1 = (15 : Int) ∧
    dget "A" (move_player (move_player (add_player initialState "A"
       "Alice").1 "A" 10).2 "A" 5).2.players
      = some { mkPlayer "A" "Alice" with position := 15 } ∧
    (move_player (move_player (add_player initialState "A" "Alice").1
       "A" 10).2 "A" 40).1 = (10 : Int) ∧
    dget "A" (move_player (move_player (add_player initialState "A"
       "Alice").1 "A" 10).2 "A" 40).2.players
      = some { mkPlayer "A" "Alice" with position := 10 } :=
  ⟨(c4_move_player _ "A" 10 { mkPlayer "A" "Alice" with position := 35 }
      (by decide)).1,
   (c4_move_player _ "A" 10 { mkPlayer "A" "Alice" with position := 35 }
      (by decide)).2.1,
   (c4_move_player _ "A" 5 { mkPlayer "A" "Alice" with position := 10 }
      (by decide)).1,
   (c4_move_player _ "A" 5 { mkPlayer "A" "Alice" with position := 10 }
      (by decide)).2.1,
   ((c4_move_player _ "A" 40 { mkPlayer "A" "Alice" with position := 10 }
      (by decide)).2.2 rfl (by decide)).1,
   ((c4_move_player _ "A" 40 { mkPlayer "A" "Alice" with position := 10 }
      (by decide)).2.2 rfl (by decide)).2⟩

/-- **C5.** A `roll_dice` action from a non-current player is rejected and
mutates nothing; from the current player it stores the two dice values —
each in `[1, 6]` by the `randint(1, 6)` contract — as `dice_roll`, moves
that player forward by their sum, and leaves `current_player_id` and the
turn counter unchanged (no auto-advance of the turn). -/
theorem c5_handle_dice_roll (s : GameState) (pid : String) (d1 d2 : Nat)
    (hd1 : 1 ≤ d1) (hd16 : d1 ≤ 6) (hd2 : 1 ≤ d2) (hd26 : d2 ≤ 6) :
    (s.current_player_id ≠ some pid → handle_dice_roll s pid d1 d2 = s) ∧
    (s.current_player_id = some pid →
      (handle_dice_roll s pid d1 d2).dice_roll = (d1, d2) ∧
      (1 ≤ d1 ∧ d1 ≤ 6 ∧ 1 ≤ d2 ∧ d2 ≤ 6) ∧
      (∀ pl, dget pid s.players = some pl →
        dget pid (handle_dice_roll s pid d1 d2).players = some
          { pl with
              position := (pl.position + (d1 + d2)) % 40
              money := if (pl.position + (d1 + d2)) % 40 < pl.position
                       then pl.money + 200 else pl.money }) ∧
      (handle_dice_roll s pid d1 d2).current_player_id
        = s.current_player_id ∧
      (handle_dice_roll s pid d1 d2).turn_number = s.turn_number) := by
  unfold handle_dice_roll
  by_cases hcur : s.current_player_id ≠ some pid
  · rw [if_pos hcur]
    exact ⟨fun _ => rfl, fun h => absurd h hcur⟩
  · rw [if_neg hcur]
    dsimp only
    refine ⟨fun h => absurd h (absurd · hcur), fun _ => ?_⟩
    refine ⟨?_, ⟨hd1, hd16, hd2, hd26⟩, fun pl hp => ?_, ?_, ?_⟩
    · rw [move_player_dice_eq]
    · have hp1 : dget pid ({ s with dice_roll := (d1, d2) } :
          GameState).players = some pl := hp
      exact (c4_move_player { s with dice_roll := (d1, d2) } pid (d1 + d2)
        pl hp1).2.1
    · rw [move_player_current_eq]
    · rw [move_player_turn_eq]

/-- Witness for C5: with current player A at position 0, a non-current
roll from B changes nothing and a (3, 4) roll from A stores the dice and
moves A to 7 with unchanged money. -/
theorem c5_handle_dice_roll_witness :
    handle_dice_roll (add_player initialState "A" "Alice").1 "B" 3 4
      = (add_player initialState "A" "Alice").1 ∧
    (handle_dice_roll (add_player initialState "A" "Alice").1 "A" 3 4
      ).dice_roll = (3, 4) ∧
    dget "A" (handle_dice_roll (add_player initialState "A" "Alice").1
      "A" 3 4).players
      = some { mkPlayer "A" "Alice" with position := 7 } ∧
    (handle_dice_roll (add_player initialState "A" "Alice").1 "A" 3 4
      ).current_player_id = some "A" ∧
    (handle_dice_roll (add_player initialState "A" "Alice").1 "A" 3 4
      ).turn_number = 0 :=
  ⟨(c5_handle_dice_roll (add_player initialState "A" "Alice").1 "B" 3 4
      (by decide) (by decide) (by decide) (by decide)).1 (by decide),
   ((c5_handle_dice_roll (add_player initialState "A" "Alice").1 "A" 3 4
      (by decide) (by decide) (by decide) (by decide)).2 (by decide)).1,
   ((c5_handle_dice_roll (add_player initialState "A" "Alice").1 "A" 3 4
      (by decide) (by decide) (by decide) (by decide)).2 (by decide)).2.2.1
      (mkPlayer "A" "Alice") (by decide),
   ((c5_handle_dice_roll (add_player initialState "A" "Alice").1 "A" 3 4
      (by decide) (by decide) (by decide) (by decide)).2 (by decide)).2.2.2.1,
   ((c5_handle_dice_roll (add_player initialState "A" "Alice").1 "A" 3 4
      (by decide) (by decide) (by decide) (by decide)).2 (by decide)).2.2.2.2⟩

/-- **C6.** `end_turn` from the current player moves `current_player_id`
to the cyclic successor of the actor in the present key list, increments
the turn counter by exactly one and resets the dice to `(0, 0)`; from a
non-current player it is rejected with no state change.  With players
A, B, C added in that order, three consecutive `end_turn` calls hand the
turn to B, then C, then back to A (each current exactly once). -/
theorem c6_handle_end_turn (s : GameState) (pid : String) :
    (s.current_player_id ≠ some pid → handle_end_turn s pid = s) ∧
    (s.current_player_id = some pid → pid ∈ dkeys s.players →
      (handle_end_turn s pid).current_player_id
        = (dkeys s.players).get?
            (((dkeys s.players).indexOf pid + 1) % (dkeys s.players).length) ∧
      (handle_end_turn s pid).turn_number = s.turn_number + 1 ∧
      (handle_end_turn s pid).dice_roll = (0, 0) ∧
      (handle_end_turn s pid).players = s.players ∧
      (handle_end_turn s pid).game_phase = s.game_phase) ∧
    ((applyOps initialState
        [Op.add "A" "Alice", Op.add "B" "Bob", Op.add "C" "Carol",
         Op.endTurn "A"]).current_player_id = some "B" ∧
     (applyOps initialState
        [Op.add "A" "Alice", Op.add "B" "Bob", Op.add "C" "Carol",
         Op.endTurn "A", Op.endTurn "B"]).current_player_id = some "C" ∧
     (applyOps initialState
        [Op.add "A" "Alice", Op.add "B" "Bob", Op.add "C" "Carol",
         Op.endTurn "A", Op.endTurn "B", Op.endTurn "C"]).current_player_id
       = some "A" ∧
     (applyOps initialState
        [Op.add "A" "Alice", Op.add "B" "Bob", Op.add "C" "Carol",
         Op.endTurn "A", Op.endTurn "B", Op.endTurn "C"]).turn_number = 3) := by
  refine ⟨fun hcur => ?_, fun hcur hm => ?_, by decide, by decide, by decide,
          by decide⟩
  · unfold handle_end_turn
    rw [if_pos hcur]
  · unfold handle_end_turn
    rw [if_neg (absurd hcur · )]
    dsimp only
    have hie : ¬((dkeys s.players).isEmpty = true) := by
      cases hq : dkeys s.players with
      | nil => rw [hq] at hm; exact absurd hm (List.not_mem_nil pid)
      | cons a l => simp
    rw [if_neg hie, if_pos hm]
    exact ⟨rfl, rfl, rfl, rfl, rfl⟩

/-- Witness for C6: concrete two-player game — B cannot end A's turn; A
ending the turn hands it to B, bumps the counter and clears the dice. -/
theorem c6_handle_end_turn_witness :
    handle_end_turn (applyOps initialState
      [Op.add "A" "Alice", Op.add "B" "Bob"]) "B"
      = applyOps initialState [Op.add "A" "Alice", Op.add "B" "Bob"] ∧
    (handle_end_turn (applyOps initialState
      [Op.add "A" "Alice", Op.add "B" "Bob"]) "A").current_player_id
      = some "B" ∧
    (handle_end_turn (applyOps initialState
      [Op.add "A" "Alice", Op.add "B" "Bob"]) "A").turn_number = 1 :=
  ⟨(c6_handle_end_turn (applyOps initialState
      [Op.add "A" "Alice", Op.add "B" "Bob"]) "B").1 (by decide),
   ((c6_handle_end_turn (applyOps initialState
      [Op.add "A" "Alice", Op.add "B" "Bob"]) "A").2.1 (by decide)
      (by decide)).1,
   ((c6_handle_end_turn (applyOps initialState
      [Op.add "A" "Alice", Op.add "B" "Bob"]) "A").2.1 (by decide)
      (by decide)).2.1⟩

/-- JSON values, as produced by `json.loads` and consumed by `json.dumps`
(the repository only ever serializes ints, so numbers are `Int`). -/
inductive Json where
  | null
  | bool (b : Bool)
  | num (n : Int)
  | str (s : String)
  | arr (xs : List Json)
  | obj (fields : List (String × Json))

/-- A Python dict key as used by the repository: a string or an int
(`Board.to_dict` keys its property map by int id). -/
inductive PyKey where
  | s (v : String)
  | i (v : Int)
deriving Repr, DecidableEq

/-- The Python values the repository hands to `json.dumps`: JSON-safe
scalars and containers, tuples (serialized as arrays), and raw `Enum`
members such as `BoardSpace.GO` (NOT JSON serializable — `json.dumps`
raises `TypeError` on them). -/
inductive PyValue where
  | pyNone
  | bool (b : Bool)
  | int (n : Int)
  | str (s : String)
  | list (xs : List PyValue)
  | tuple (xs : List PyValue)
  | dict (fields : List (PyKey × PyValue))
  | enumMember (cls member : String)

/-- `json.dumps` stringifies non-string dict keys. -/
def PyKey.asString : PyKey → String
  | .s v => v
  | .i v => toString v

mutual

/-- `json.dumps` at the value level: `none` models the `TypeError` raised
on a value outside the JSON-serializable types (here: raw enum members);
tuples become arrays and int dict keys become string keys. -/
def dumpsJson : PyValue → Option Json
  | .pyNone => some .null
  | .bool b => some (.bool b)
  | .int n => some (.num n)
  | .str s => some (.str s)
  | .list xs => (dumpsJsonList xs).map .arr
  | .tuple xs => (dumpsJsonList xs).map .arr
  | .dict fields => (dumpsJsonFields fields).map .obj
  | .enumMember _ _ => none

def dumpsJsonList : List PyValue → Option (List Json)
  | [] => some []
  | x :: xs =>
      match dumpsJson x with
      | none => none
      | some jx =>
          match dumpsJsonList xs with
          | none => none
          | some jxs => some (jx :: jxs)

def dumpsJsonFields : List (PyKey × PyValue) → Option (List (String × Json))
  | [] => some []
  | (k, v) :: rest =>
      match dumpsJson v with
      | none => none
      | some jv =>
          match dumpsJsonFields rest with
          | none => none
          | some jrest => some ((k.asString, jv) :: jrest)

end

mutual

/-- `json.loads` output viewed as Python values (dicts with string keys,
lists, scalars — never tuples or enum members). -/
def pyOfJson : Json → PyValue
  | .null => .pyNone
  | .bool b => .bool b
  | .num n => .int n
  | .str s => .str s
  | .arr xs => .list (pyOfJsonList xs)
  | .obj fields => .dict (pyOfJsonFields fields)

def pyOfJsonList : List Json → List PyValue
  | [] => []
  | x :: xs => pyOfJson x :: pyOfJsonList xs

def pyOfJsonFields : List (String × Json) → List (PyKey × PyValue)
  | [] => []
  | (k, v) :: rest => (PyKey.s k, pyOfJson v) :: pyOfJsonFields rest

end

/-- `Optional[str]` fields in `to_dict` output. -/
def pyOptStr : Option String → PyValue
  | none => .pyNone
  | some s => .str s

/-- `src/server/game_state.py` `PropertyGroup` enum. -/
inductive PropertyGroup where
  | brown | light_blue | pink | orange | red | yellow | green
  | dark_blue | railroad | utility
deriving Repr, DecidableEq

/-- The `.value` string of each `PropertyGroup` member. -/
def PropertyGroup.value : PropertyGroup → String
  | .brown => "brown"
  | .light_blue => "light_blue"
  | .pink => "pink"
  | .orange => "orange"
  | .red => "red"
  | .yellow => "yellow"
  | .green => "green"
  | .dark_blue => "dark_blue"
  | .railroad => "railroad"
  | .utility => "utility"

/-- `src/server/game_state.py` `Property.__init__` fields.  `rent_values`
is `[base, 1 house, 2 houses, 3 houses, 4 houses, hotel]`. -/
structure Property where
  id : Nat
  name : String
  price : Int
  group : PropertyGroup
  rent_values : List Int
  mortgage_value : Int
  owner_id : Option String
  is_mortgaged : Bool
  houses : Nat
  has_hotel : Bool
deriving Repr, DecidableEq

/-- `Property.get_rent`: 0 when mortgaged; else `rent_values[0]` when
unimproved, `rent_values[5]` with a hotel, `rent_values[houses]`
otherwise.  Python list indexing raises `IndexError` out of range, so the
lookup is modelled with `List.get?` (`none` = `IndexError`). -/
def Property.get_rent (p : Property) : Option Int :=
  if p.is_mortgaged then some 0
  else if p.houses = 0 ∧ p.has_hotel = false then p.rent_values.get? 0
  else if p.has_hotel then p.rent_values.get? 5
  else p.rent_values.get? p.houses

/-- `Property.to_dict`. -/
def Property.to_dict (p : Property) : PyValue :=
  .dict [(.s "id", .int p.id),
         (.s "name", .str p.name),
         (.s "price", .int p.price),
         (.s "group", .str p.group.value),
         (.s "rent_values", .list (p.rent_values.map PyValue.int)),
         (.s "mortgage_value", .int p.mortgage_value),
         (.s "owner_id", pyOptStr p.owner_id),
         (.s "is_mortgaged", .bool p.is_mortgaged),
         (.s "houses", .int p.houses),
         (.s "has_hotel", .bool p.has_hotel)]

/-- `Player.to_dict`. -/
def Player.to_dict (p : Player) : PyValue :=
  .dict [(.s "id", .str p.id),
         (.s "name", .str p.name),
         (.s "position", .int p.position),
         (.s "money", .int p.money),
         (.s "owned_properties", .list (p.owned_properties.map
           (fun n => PyValue.int n))),
         (.s "is_in_jail", .bool p.is_in_jail),
         (.s "jail_turns", .int p.jail_turns),
         (.s "get_out_of_jail_cards", .int p.get_out_of_jail_cards)]

/-- `Board._create_board_spaces`: the five example spaces the source
defines; the `"type"` values are RAW `BoardSpace` enum members, exactly as
stored by the Python code. -/
def create_board_spaces : List PyValue :=
  [.dict [(.s "type", .enumMember "BoardSpace" "GO"),
          (.s "name", .str "GO"), (.s "position", .int 0)],
   .dict [(.s "type", .enumMember "BoardSpace" "PROPERTY"),
          (.s "property_id", .int 1), (.s "position", .int 1)],
   .dict [(.s "type", .enumMember "BoardSpace" "COMMUNITY_CHEST"),
          (.s "name", .str "Community Chest"), (.s "position", .int 2)],
   .dict [(.s "type", .enumMember "BoardSpace" "PROPERTY"),
          (.s "property_id", .int 2), (.s "position", .int 3)],
   .dict [(.s "type", .enumMember "BoardSpace" "TAX"),
          (.s "name", .str "Income Tax"), (.s "amount", .int 200),
          (.s "position", .int 4)]]

/-- `Board._create_properties`: the two example properties defined by the
source. -/
def create_properties : List (Nat × Property) :=
  [(1, { id := 1, name := "Mediterranean Avenue", price := 60,
         group := .brown, rent_values := [2, 10, 30, 90, 160, 250],
         mortgage_value := 30, owner_id := none, is_mortgaged := false,
         houses := 0, has_hotel := false }),
   (2, { id := 2, name := "Baltic Avenue", price := 60,
         group := .brown, rent_values := [4, 20, 60, 180, 320, 450],
         mortgage_value := 30, owner_id := none, is_mortgaged := false,
         houses := 0, has_hotel := false })]

/-- `src/server/game_state.py` `Board`: the spaces list and the
property-id-keyed mapping. -/
structure Board where
  spaces : List PyValue
  properties : List (Nat × Property)

/-- `Board()` as built by `__init__`. -/
def initialBoard : Board :=
  { spaces := create_board_spaces, properties := create_properties }

/-- `Board.to_dict`: note the int keys of the property map. -/
def Board.to_dict (b : Board) : PyValue :=
  .dict [(.s "spaces", .list b.spaces),
         (.s "properties", .dict (b.properties.map
           (fun kv => (PyKey.i kv.1, kv.2.to_dict))))]

/-- `GameState.to_dict`.  The Python `GameState` owns its `Board`; the
board is immutable and unused by every mutator modelled above, so it is
passed explicitly here. -/
def GameState.to_dict (s : GameState) (board : Board) : PyValue :=
  .dict [(.s "board", board.to_dict),
         (.s "players", .dict (s.players.map
           (fun kv => (PyKey.s kv.1, kv.2.to_dict)))),
         (.s "current_player_id", pyOptStr s.current_player_id),
         (.s "dice_roll", .tuple [.int s.dice_roll.1, .int s.dice_roll.2]),
         (.s "game_phase", .str s.game_phase),
         (.s "turn_number", .int s.turn_number)]

/-- `src/common/messages.py` `MessageType` enum. -/
inductive MessageType where
  | CONNECT | DISCONNECT | GAME_STATE | PLAYER_ACTION | DICE_ROLL
  | PROPERTY_TRANSACTION | PLAYER_STATUS | GAME_EVENT | ERROR
deriving Repr, DecidableEq

/-- `MessageType.name` (Python `Enum.name`). -/
def MessageType.name : MessageType → String
  | .CONNECT => "CONNECT"
  | .DISCONNECT => "DISCONNECT"
  | .GAME_STATE => "GAME_STATE"
  | .PLAYER_ACTION => "PLAYER_ACTION"
  | .DICE_ROLL => "DICE_ROLL"
  | .PROPERTY_TRANSACTION => "PROPERTY_TRANSACTION"
  | .PLAYER_STATUS => "PLAYER_STATUS"
  | .GAME_EVENT => "GAME_EVENT"
  | .ERROR => "ERROR"

/-- The `MessageType` member map consulted by `MessageType[name]`. -/
def messageTypeByName : String → Option MessageType
  | "CONNECT" => some .CONNECT
  | "DISCONNECT" => some .DISCONNECT
  | "GAME_STATE" => some .GAME_STATE
  | "PLAYER_ACTION" => some .PLAYER_ACTION
  | "DICE_ROLL" => some .DICE_ROLL
  | "PROPERTY_TRANSACTION" => some .PROPERTY_TRANSACTION
  | "PLAYER_STATUS" => some .PLAYER_STATUS
  | "GAME_EVENT" => some .GAME_EVENT
  | "ERROR" => some .ERROR
  | _ => none

/-- `src/common/messages.py` `Message`: a type tag and a data payload. -/
structure Message where
  type : MessageType
  data : PyValue

/-- The `message_dict` built by `Message.to_json` before `json.dumps`. -/
def Message.message_dict (m : Message) : PyValue :=
  .dict [(.s "type", .str m.type.name), (.s "data", m.data)]

/-- `Message.to_json` at the JSON-value level: `json.dumps` of the
envelope; `none` models the `TypeError` `json.dumps` raises on
non-serializable content. -/
def Message.to_json_value (m : Message) : Option Json :=
  dumpsJson m.message_dict

/-- `GameStateMessage(game_state_dict)`. -/
def gameStateMessage (game_state : PyValue) : Message :=
  { type := .GAME_STATE, data := game_state }

/-- Python exceptions that `Message.from_json` and the server dispatch can
raise.  Each carries the text Python would attach. -/
inductive PyExn where
  | keyError (k : String)
  | typeError (msg : String)
  | jsonDecodeError (msg : String)
  | attributeError (name : String)
deriving Repr, DecidableEq

/-- Python subscript `obj[k]` on a `json.loads` result: field lookup on an
object, `KeyError` when missing, `TypeError` on non-dict values. -/
def jsonSubscript (j : Json) (k : String) : Except PyExn Json :=
  match j with
  | .obj fields =>
      match dget k fields with
      | some v => .ok v
      | none => .error (.keyError k)
  | .arr _ => .error (.typeError "list indices must be integers")
  | _ => .error (.typeError "object is not subscriptable")

/-- `MessageType[v]` (Python `Enum.__getitem__`): a string member name
succeeds; a string non-member and any other hashable value (null, bool,
number) raise `KeyError`; unhashable values (arrays, objects — Python
lists and dicts) raise `TypeError` from the member-map lookup. -/
def messageTypeGetItem : Json → Except PyExn MessageType
  | .str s =>
      match messageTypeByName s with
      | some t => .ok t
      | none => .error (.keyError s)
  | .arr _ => .error (.typeError "unhashable type: list")
  | .obj _ => .error (.typeError "unhashable type: dict")
  | .null => .error (.keyError "None")
  | .bool b => .error (.keyError (toString b))
  | .num n => .error (.keyError (toString n))

/-- The `str(e)` text interpolated into the `ERROR` payload. -/
def PyExn.text : PyExn → String
  | .keyError k => k
  | .typeError msg => msg
  | .jsonDecodeError msg => msg
  | .attributeError name => name

/-- The body of `Message.from_json` before its `except` clause: parse
(`.error emsg` models a `json.JSONDecodeError` with message `emsg`), look
up `message_dict["type"]`, resolve the enum member, then read
`message_dict["data"]`. -/
def fromJsonCore (input : Except String Json) : Except PyExn Message :=
  match input with
  | .error emsg => .error (.jsonDecodeError emsg)
  | .ok j =>
      match jsonSubscript j "type" with
      | .error e => .error e
      | .ok tv =>
          match messageTypeGetItem tv with
          | .error e => .error e
          | .ok t =>
              match jsonSubscript j "data" with
              | .error e => .error e
              | .ok d => .ok { type := t, data := pyOfJson d }

/-- `Message.from_json`: the `except (json.JSONDecodeError, KeyError)`
clause converts exactly those two exceptions into an `ERROR` message with
an `"error"` string; any other exception (notably `TypeError` from an
unhashable `"type"` value) propagates to the caller. -/
def Message.from_json (input : Except String Json) : Except PyExn Message :=
  match fromJsonCore input with
  | .ok m => .ok m
  | .error (.keyError k) =>
      .ok { type := .ERROR,
            data := .dict [(.s "error",
              .str ("Invalid message format: " ++ k))] }
  | .error (.jsonDecodeError emsg) =>
      .ok { type := .ERROR,
            data := .dict [(.s "error",
              .str ("Invalid message format: " ++ emsg))] }
  | .error e => .error e

/-- `MonopolyServer._process_message` restricted to `PLAYER_ACTION`
messages: dispatch on the `"action"` string (`message.data.get("action")`
passed in as `action`), with the dice draws as parameters; `buy_property`
reaches `self._handle_buy_property`, a method the class never defines, so
Python raises `AttributeError` there; afterwards
`_broadcast_game_state` serializes the snapshot and sends it to every
registered session.  The result is the new state plus the per-session
broadcast payloads, or the first uncaught exception. -/
def process_player_action (s : GameState) (board : Board)
    (sessions : List String) (client_id : String)
    (action : Option PyValue) (d1 d2 : Nat) :
    Except PyExn (GameState × List (String × Json)) :=
  let step : Except PyExn GameState :=
    match action with
    | some (.str "roll_dice") => .ok (handle_dice_roll s client_id d1 d2)
    | some (.str "buy_property") =>
        .error (.attributeError "_handle_buy_property")
    | some (.str "end_turn") => .ok (handle_end_turn s client_id)
    | _ => .ok s
  match step with
  | .error e => .error e
  | .ok s1 =>
      match (gameStateMessage (s1.to_dict board)).to_json_value with
      | none => .error (.typeError
          "Object of type BoardSpace is not JSON serializable")
      | some j => .ok (s1, sessions.map (fun sid => (sid, j)))

theorem snapshot_to_json_none (s : GameState) :
    (gameStateMessage (s.to_dict initialBoard)).to_json_value = none := rfl

/-- **C7 (falsified by the code).** Processing a `PLAYER_ACTION` never
completes with a broadcast: `buy_property` hits the undefined
`_handle_buy_property` method (`AttributeError`), and every other action
path reaches `_broadcast_game_state`, whose `json.dumps` raises
`TypeError` because the board's space dicts hold raw `BoardSpace` enum
members.  So for every state and action the dispatch ends in an uncaught
exception and zero broadcasts, against the claimed
exactly-one-broadcast-per-action behaviour. -/
theorem c7_process_player_action_always_raises (s : GameState)
    (sessions : List String) (cid : String) (action : Option PyValue)
    (d1 d2 : Nat) :
    (∃ e, process_player_action s initialBoard sessions cid action d1 d2
      = Except.error e) ∧
    process_player_action s initialBoard sessions cid
      (some (.str "buy_property")) d1 d2
      = Except.error (.attributeError "_handle_buy_property") ∧
    process_player_action (add_player initialState "A" "Alice").1
      initialBoard ["sess"] "A" (some (.str "end_turn")) 1 1
      = Except.error (.typeError
          "Object of type BoardSpace is not JSON serializable") := by
  refine ⟨?_, rfl, rfl⟩
  unfold process_player_action
  dsimp only
  split
  · exact ⟨_, rfl⟩
  · rename_i s1 heq
    rw [snapshot_to_json_none s1]
    exact ⟨_, rfl⟩

/-- **C8.** Under the documented well-formedness assumptions (6 rent
entries, at most 4 houses, hotel implies no houses), `get_rent` is 0 when
mortgaged, `rent_values[0]` when unimproved, `rent_values[5]` with a
hotel, `rent_values[houses]` otherwise, and the lookup always stays in
bounds (never `IndexError`). -/
theorem c8_property_get_rent (p : Property)
    (h6 : p.rent_values.length = 6) (hh4 : p.houses ≤ 4)
    (hhot : p.has_hotel = true → p.houses = 0) :
    (p.is_mortgaged = true → p.get_rent = some 0) ∧
    (p.is_mortgaged = false → p.has_hotel = false → p.houses = 0 →
      p.get_rent = p.rent_values.get? 0) ∧
    (p.is_mortgaged = false → p.has_hotel = true →
      p.get_rent = p.rent_values.get? 5) ∧
    (p.is_mortgaged = false → p.has_hotel = false → 0 < p.houses →
      p.get_rent = p.rent_values.get? p.houses) ∧
    (p.get_rent).isSome = true := by
  unfold Property.get_rent
  cases hmort : p.is_mortgaged with
  | true =>
      rw [if_pos rfl]
      exact ⟨fun _ => rfl, fun h => absurd h (by simp),
             fun h => absurd h (by simp), fun h => absurd h (by simp), rfl⟩
  | false =>
      rw [if_neg (by simp)]
      cases hht : p.has_hotel with
      | true =>
          have hz := hhot hht
          rw [if_neg (by simp [hht]), if_pos rfl]
          refine ⟨fun h => absurd h (by simp), fun _ h => absurd h (by simp),
                  fun _ _ => rfl, fun _ h => absurd h (by simp), ?_⟩
          have h5 : (5 : Nat) < p.rent_values.length := by omega
          rw [List.get?_eq_get h5]
          rfl
      | false =>
          by_cases hz : p.houses = 0
          · rw [if_pos ⟨hz, rfl⟩]
            refine ⟨fun h => absurd h (by simp),
                    fun _ _ _ => rfl, fun _ h => absurd h (by simp),
                    fun _ _ hlt => absurd hz (by omega), ?_⟩
            have h0 : (0 : Nat) < p.rent_values.length := by omega
            rw [List.get?_eq_get h0]
            rfl
          · rw [if_neg (by simp [hz]), if_neg (by simp)]
            refine ⟨fun h => absurd h (by simp),
                    fun _ _ h0 => absurd h0 hz,
                    fun _ h => absurd h (by simp),
                    fun _ _ _ => rfl, ?_⟩
            have hlt : p.houses < p.rent_values.length := by omega
            rw [List.get?_eq_get hlt]
            rfl

/-- Witness for C8 on concrete properties: mortgaged yields 0 even with a
hotel; a hotel on Mediterranean Avenue yields 250; unimproved Baltic
Avenue yields 4; 3 houses on Baltic yield 180. -/
theorem c8_property_get_rent_witness :
    Property.get_rent
      { id := 1, name := "Mediterranean Avenue", price := 60,
        group := .brown, rent_values := [2, 10, 30, 90, 160, 250],
        mortgage_value := 30, owner_id := none, is_mortgaged := true,
        houses := 0, has_hotel := true } = some 0 ∧
    Property.get_rent
      { id := 1, name := "Mediterranean Avenue", price := 60,
        group := .brown, rent_values := [2, 10, 30, 90, 160, 250],
        mortgage_value := 30, owner_id := none, is_mortgaged := false,
        houses := 0, has_hotel := true } = some 250 ∧
    Property.get_rent
      { id := 2, name := "Baltic Avenue", price := 60,
        group := .brown, rent_values := [4, 20, 60, 180, 320, 450],
        mortgage_value := 30, owner_id := none, is_mortgaged := false,
        houses := 0, has_hotel := false } = some 4 ∧
    Property.get_rent
      { id := 2, name := "Baltic Avenue", price := 60,
        group := .brown, rent_values := [4, 20, 60, 180, 320, 450],
        mortgage_value := 30, owner_id := none, is_mortgaged := false,
        houses := 3, has_hotel := false } = some 180 :=
  ⟨(c8_property_get_rent _ (by decide) (by decide) (fun _ => rfl)).1 rfl,
   (c8_property_get_rent _ (by decide) (by decide)
      (fun _ => rfl)).2.2.1 rfl rfl,
   (c8_property_get_rent _ (by decide) (by decide)
      (fun h => by cases h)).2.1 rfl rfl rfl,
   (c8_property_get_rent _ (by decide) (by decide)
      (fun h => by cases h)).2.2.2.1 rfl rfl (by decide)⟩

/-- **C9 (falsified by the code).** Encoding a snapshot as a `GAME_STATE`
wire message (`to_dict` then `to_json`) never succeeds: for *every*
`GameState`, `json.dumps` raises `TypeError` on the raw `BoardSpace` enum
members inside `board["spaces"]`, so no wire message exists for
`Message.from_json` to reconstruct.  The second conjunct isolates the
offending value. -/
theorem c9_snapshot_encode_raises (s : GameState) :
    (gameStateMessage (s.to_dict initialBoard)).to_json_value = none ∧
    dumpsJson (PyValue.enumMember "BoardSpace" "GO") = none :=
  ⟨snapshot_to_json_none s, rfl⟩

/-- The `ERROR` reply `Message.from_json` builds in its `except`
clause. -/
def errorMessage (estr : String) : Message :=
  { type := .ERROR, data := .dict [(.s "error", .str estr)] }

/-- **C10 (counterexample).** The JSON object with an array as its
`"type"` value and both required keys present is within the claim's scope
(`[]` is not the name of any message kind), yet `Message.from_json` does
raise: the `MessageType[...]` member lookup on the unhashable value throws
`TypeError`, which the `except (json.JSONDecodeError, KeyError)` clause
does not catch — no `ERROR` message is returned. -/
theorem c10_from_json_counterexample :
    Message.from_json (Except.ok (Json.obj
      [("type", Json.arr []), ("data", Json.obj [])]))
      = Except.error (PyExn.typeError "unhashable type: list") := rfl

/-- The `"type"` values on which the claim's no-raise behaviour actually
holds: hashable JSON values that are not a known member name (strings not
naming a kind, null, booleans, numbers).  Arrays and objects (Python
lists/dicts) are unhashable and excluded. -/
def hashableNonMemberType : Json → Prop
  | .str s => messageTypeByName s = none
  | .null => True
  | .bool _ => True
  | .num _ => True
  | .arr _ => False
  | .obj _ => False

/-- **C10 (amended).** `Message.from_json` returns an `ERROR` message
carrying an `"error"` string — instead of raising — for: invalid JSON
(`JSONDecodeError`), an object missing `"type"`, an object whose `"type"`
value is hashable but not a known kind name, and an object with a valid
`"type"` but missing `"data"`.  However, when the `"type"` value is a
JSON array or object, the member lookup raises an *uncaught*
`TypeError`. -/
theorem c10_from_json_amended (emsg : String)
    (fields : List (String × Json)) :
    (∃ estr, Message.from_json (Except.error emsg)
      = Except.ok (errorMessage estr)) ∧
    (dget "type" fields = none →
      ∃ estr, Message.from_json (Except.ok (Json.obj fields))
        = Except.ok (errorMessage estr)) ∧
    (∀ tv, dget "type" fields = some tv → hashableNonMemberType tv →
      ∃ estr, Message.from_json (Except.ok (Json.obj fields))
        = Except.ok (errorMessage estr)) ∧
    (∀ name t, dget "type" fields = some (Json.str name) →
      messageTypeByName name = some t → dget "data" fields = none →
      ∃ estr, Message.from_json (Except.ok (Json.obj fields))
        = Except.ok (errorMessage estr)) ∧
    (∀ xs, dget "type" fields = some (Json.arr xs) →
      Message.from_json (Except.ok (Json.obj fields))
        = Except.error (.typeError "unhashable type: list")) ∧
    (∀ fl, dget "type" fields = some (Json.obj fl) →
      Message.from_json (Except.ok (Json.obj fields))
        = Except.error (.typeError "unhashable type: dict")) := by
  refine ⟨⟨"Invalid message format: " ++ emsg, rfl⟩,
          fun h => ?_, fun tv h htv => ?_, fun name t h ht hd => ?_,
          fun xs h => ?_, fun fl h => ?_⟩
  · refine ⟨"Invalid message format: " ++ "type", ?_⟩
    unfold Message.from_json fromJsonCore jsonSubscript
    dsimp only
    rw [h]
    rfl
  · cases tv with
    | str sv =>
        refine ⟨"Invalid message format: " ++ sv, ?_⟩
        unfold Message.from_json fromJsonCore jsonSubscript
        dsimp only
        rw [h]
        dsimp only [messageTypeGetItem]
        have htv2 : messageTypeByName sv = none := htv
        rw [htv2]
        rfl
    | null =>
        refine ⟨"Invalid message format: " ++ "None", ?_⟩
        unfold Message.from_json fromJsonCore jsonSubscript
        dsimp only
        rw [h]
        rfl
    | bool b =>
        refine ⟨"Invalid message format: " ++ toString b, ?_⟩
        unfold Message.from_json fromJsonCore jsonSubscript
        dsimp only
        rw [h]
        rfl
    | num n =>
        refine ⟨"Invalid message format: " ++ toString n, ?_⟩
        unfold Message.from_json fromJsonCore jsonSubscript
        dsimp only
        rw [h]
        rfl
    | arr xs => exact absurd htv (by simp [hashableNonMemberType])
    | obj fl => exact absurd htv (by simp [hashableNonMemberType])
  · refine ⟨"Invalid message format: " ++ "data", ?_⟩
    unfold Message.from_json fromJsonCore jsonSubscript
    dsimp only
    rw [h]
    dsimp only [messageTypeGetItem]
    rw [ht, hd]
    rfl
  · unfold Message.from_json fromJsonCore jsonSubscript
    dsimp only
    rw [h]
    rfl
  · unfold Message.from_json fromJsonCore jsonSubscript
    dsimp only
    rw [h]
    rfl

/-- Witness for C10 (amended) at concrete inputs: a parse failure, a
missing `"type"`, an unknown kind name `"BOGUS"`, and a valid type with
missing `"data"` each produce an `ERROR` message; an array-valued
`"type"` raises `TypeError`. -/
theorem c10_from_json_amended_witness :
    (∃ estr, Message.from_json (Except.error "Expecting value")
      = Except.ok (errorMessage estr)) ∧
    (∃ estr, Message.from_json (Except.ok (Json.obj
        [("data", Json.obj [])]))
      = Except.ok (errorMessage estr)) ∧
    (∃ estr, Message.from_json (Except.ok (Json.obj
        [("type", Json.str "BOGUS"), ("data", Json.obj [])]))
      = Except.ok (errorMessage estr)) ∧
    (∃ estr, Message.from_json (Except.ok (Json.obj
        [("type", Json.str "CONNECT")]))
      = Except.ok (errorMessage estr)) ∧
    Message.from_json (Except.ok (Json.obj
        [("type", Json.arr [Json.num 1]), ("data", Json.null)]))
      = Except.error (.typeError "unhashable type: list") :=
  ⟨(c10_from_json_amended "Expecting value" []).1,
   (c10_from_json_amended "x" [("data", Json.obj [])]).2.1 rfl,
   (c10_from_json_amended "x"
      [("type", Json.str "BOGUS"), ("data", Json.obj [])]).2.2.1
      (Json.str "BOGUS") rfl rfl,
   (c10_from_json_amended "x" [("type", Json.str "CONNECT")]).2.2.2.1
      "CONNECT" MessageType.CONNECT rfl rfl rfl,
   (c10_from_json_amended "x"
      [("type", Json.arr [Json.num 1]), ("data", Json.null)]).2.2.2.2.1
      [Json.num 1] rfl⟩

end Monopoly
